import Mathlib

/-!
Verification development for the Career-Guidance recommendation and credit
subsystems. The definitions below are a shallow embedding of the Python
source (`resume_pipeline/app.py` endpoint `generate_recommendations_for_applicant`,
`resume_pipeline/core/credit_service.py` class `CreditService`, and
`resume_pipeline/constants.py`). Machine floats are modelled as rationals,
timestamps as natural-number seconds since an epoch, database rows as
structures, and catalog queries as lists.
-/

namespace CareerGuidance

/-! ## Constants (`constants.py`) -/

def JEE_RANK_SCORE : ℚ := 35
def CGPA_SCORE : ℚ := 25
def SKILLS_SCORE : ℚ := 25
def INTERVIEW_SCORE : ℚ := 15
def ACADEMIC_SCORE : ℚ := 20
def EXPERIENCE_SCORE : ℚ := 20
def ASSESSMENT_SCORE : ℚ := 10
def MIN_JOB_RECOMMENDATION_SCORE : ℚ := 35

def SCORE_FRESHNESS_MONTHS : ℚ := 6

/-- `INTERVIEW_SCORE_MULTIPLIERS['excellent']` -/
def MULT_EXCELLENT : ℚ := 1
/-- `INTERVIEW_SCORE_MULTIPLIERS['good']` (the literal `0.67` in the source) -/
def MULT_GOOD : ℚ := 67/100
/-- `INTERVIEW_SCORE_MULTIPLIERS['average']` (the literal `0.33` in the source) -/
def MULT_AVERAGE : ℚ := 33/100
/-- `INTERVIEW_SCORE_MULTIPLIERS['poor']` -/
def MULT_POOR : ℚ := 0

def FULL_MOCK_INTERVIEW_COST : ℤ := 10
def MICRO_SESSION_COST : ℤ := 1
def CODING_QUESTION_COST : ℤ := 1
def PROJECT_IDEA_COST : ℤ := 2
def DEFAULT_WEEKLY_CREDITS : ℤ := 60
def MAX_DAILY_CREDITS_USAGE : ℤ := 30
def CREDITS_REFILL_DAYS : ℕ := 7
def MAX_FULL_INTERVIEWS_PER_WEEK : ℕ := 4
def MAX_MICRO_SESSIONS_PER_DAY : ℕ := 10
def MAX_CODING_QUESTIONS_PER_DAY : ℕ := 10
def MAX_PROJECT_IDEAS_PER_WEEK : ℕ := 10

/-- Seconds in one day; timestamps are seconds since an epoch. -/
def SECONDS_PER_DAY : ℕ := 86400

/-! ## Credit ledger state (`db.py` rows `CreditAccount`, `CreditUsageStats`) -/

structure AccountState where
  current_credits : ℤ
  total_earned : ℤ
  total_spent : ℤ
  admin_bonus_credits : ℤ
  weekly_credit_limit : ℤ
  last_refill_at : ℕ
  next_refill_at : ℕ
  deriving Repr, DecidableEq

structure StatsState where
  credits_used_today : ℤ
  micro_sessions_today : ℕ
  coding_questions_today : ℕ
  last_daily_reset : ℕ
  credits_used_this_week : ℤ
  full_interviews_this_week : ℕ
  project_ideas_this_week : ℕ
  last_weekly_reset : ℕ
  deriving Repr, DecidableEq

structure CreditState where
  acct : AccountState
  stats : StatsState
  deriving Repr, DecidableEq

/-- `CreditService.get_or_create_account` on first access: default balance and
limit `DEFAULT_WEEKLY_CREDITS`, next refill seven days out, zeroed stats. -/
def initCreditState (t0 : ℕ) : CreditState :=
  { acct :=
      { current_credits := DEFAULT_WEEKLY_CREDITS
        total_earned := DEFAULT_WEEKLY_CREDITS
        total_spent := 0
        admin_bonus_credits := 0
        weekly_credit_limit := DEFAULT_WEEKLY_CREDITS
        last_refill_at := t0
        next_refill_at := t0 + CREDITS_REFILL_DAYS * SECONDS_PER_DAY }
    stats :=
      { credits_used_today := 0
        micro_sessions_today := 0
        coding_questions_today := 0
        last_daily_reset := t0
        credits_used_this_week := 0
        full_interviews_this_week := 0
        project_ideas_this_week := 0
        last_weekly_reset := t0 } }

/-- `CreditService.check_and_refill`: when the refill is due, credit the weekly
allotment capped at twice the weekly limit and advance the refill window from
`now`. -/
def checkAndRefill (now : ℕ) (a : AccountState) : AccountState :=
  if a.next_refill_at ≤ now then
    { a with
      current_credits := min (a.current_credits + a.weekly_credit_limit)
        (a.weekly_credit_limit * 2)
      total_earned := a.total_earned + a.weekly_credit_limit
      last_refill_at := now
      next_refill_at := now + CREDITS_REFILL_DAYS * SECONDS_PER_DAY }
  else a

/-- Calendar day of a timestamp (UTC date comparison in the source). -/
def dayOf (t : ℕ) : ℕ := t / SECONDS_PER_DAY

/-- `CreditService.reset_daily_stats_if_needed`. -/
def resetDailyIfNeeded (now : ℕ) (s : StatsState) : StatsState :=
  if dayOf s.last_daily_reset < dayOf now then
    { s with
      credits_used_today := 0
      micro_sessions_today := 0
      coding_questions_today := 0
      last_daily_reset := now }
  else s

/-- `CreditService.reset_weekly_stats_if_needed`: reset once 7 whole days have
elapsed (`timedelta.days`, i.e. floor of the elapsed seconds over a day). -/
def resetWeeklyIfNeeded (now : ℕ) (s : StatsState) : StatsState :=
  if 7 ≤ (now - s.last_weekly_reset) / SECONDS_PER_DAY then
    { s with
      credits_used_this_week := 0
      full_interviews_this_week := 0
      project_ideas_this_week := 0
      last_weekly_reset := now }
  else s

/-- Context dictionary returned by `check_eligibility` (absent keys are `none`
or `false`). -/
structure CheckContext where
  credits : ℤ
  cost : Option ℤ
  balance_after : Option ℤ
  next_refill_days : Option ℤ
  limit_reached : Bool
  daily_limit_reached : Bool
  deriving Repr, DecidableEq

structure CheckResult where
  allowed : Bool
  reason : String
  ctx : CheckContext
  deriving Repr, DecidableEq

/-- `(next_refill_at - utcnow).days`: floor division of the signed difference. -/
def daysUntilRefill (now : ℕ) (a : AccountState) : ℤ :=
  Int.fdiv ((a.next_refill_at : ℤ) - (now : ℤ)) (SECONDS_PER_DAY : ℤ)

/-- The balance check and the global daily-ceiling check at the tail of
`check_eligibility`, shared by every activity branch. -/
def balanceAndDailyCheck (now : ℕ) (cost : ℤ) (cs : CreditState) :
    CreditState × CheckResult :=
  if cs.acct.current_credits < cost then
    (cs,
      { allowed := false
        reason := "Insufficient credits. Need " ++ toString cost ++ ", have "
          ++ toString cs.acct.current_credits ++ ". Refill in "
          ++ toString (daysUntilRefill now cs.acct) ++ " days."
        ctx :=
          { credits := cs.acct.current_credits
            cost := some cost
            balance_after := none
            next_refill_days := some (daysUntilRefill now cs.acct)
            limit_reached := false
            daily_limit_reached := false } })
  else if MAX_DAILY_CREDITS_USAGE < cs.stats.credits_used_today + cost then
    (cs,
      { allowed := false
        reason := "Daily usage limit reached (" ++ toString MAX_DAILY_CREDITS_USAGE
          ++ " credits/day)"
        ctx :=
          { credits := cs.acct.current_credits
            cost := none
            balance_after := none
            next_refill_days := none
            limit_reached := false
            daily_limit_reached := true } })
  else
    (cs,
      { allowed := true
        reason := "Eligible"
        ctx :=
          { credits := cs.acct.current_credits
            cost := some cost
            balance_after := some (cs.acct.current_credits - cost)
            next_refill_days := some (daysUntilRefill now cs.acct)
            limit_reached := false
            daily_limit_reached := false } })

/-- A cap rejection `(allowed=False, message, {'credits':…, 'limit_reached':True})`. -/
def capReject (reason : String) (cs : CreditState) : CreditState × CheckResult :=
  (cs,
    { allowed := false
      reason := reason
      ctx :=
        { credits := cs.acct.current_credits
          cost := none
          balance_after := none
          next_refill_days := none
          limit_reached := true
          daily_limit_reached := false } })

/-- `CreditService.check_eligibility`: lazy refill and window resets, then the
per-activity dispatch, then balance and daily-ceiling checks. As in the
source, the `full_interview` branch only determines its cost (its weekly-cap
variables are computed but never compared), while `micro_session`,
`coding_question` and `project_idea` reject on their caps; any other activity
falls through with a default cost of 1. -/
def checkEligibility (now : ℕ) (activity : String) (cs : CreditState) :
    CreditState × CheckResult :=
  let a := checkAndRefill now cs.acct
  let st := resetWeeklyIfNeeded now (resetDailyIfNeeded now cs.stats)
  let cs' : CreditState := ⟨a, st⟩
  if activity = "full_interview" then
    balanceAndDailyCheck now FULL_MOCK_INTERVIEW_COST cs'
  else if activity = "micro_session" then
    if MAX_MICRO_SESSIONS_PER_DAY ≤ st.micro_sessions_today then
      capReject ("Daily limit reached (" ++ toString MAX_MICRO_SESSIONS_PER_DAY
        ++ " micro-sessions today)") cs'
    else balanceAndDailyCheck now MICRO_SESSION_COST cs'
  else if activity = "coding_question" then
    if MAX_CODING_QUESTIONS_PER_DAY ≤ st.coding_questions_today then
      capReject ("Daily limit reached (" ++ toString MAX_CODING_QUESTIONS_PER_DAY
        ++ " coding questions today)") cs'
    else balanceAndDailyCheck now CODING_QUESTION_COST cs'
  else if activity = "project_idea" then
    if MAX_PROJECT_IDEAS_PER_WEEK ≤ st.project_ideas_this_week then
      capReject ("Weekly limit reached (" ++ toString MAX_PROJECT_IDEAS_PER_WEEK
        ++ " project ideas this week)") cs'
    else balanceAndDailyCheck now PROJECT_IDEA_COST cs'
  else
    balanceAndDailyCheck now 1 cs'

/-- `CreditService.spend_credits`: unconditional deduction plus counter
updates (no re-validation, mirroring the reserve/commit split). -/
def spendCredits (activity : String) (cost : ℤ) (cs : CreditState) : CreditState :=
  let a :=
    { cs.acct with
      current_credits := cs.acct.current_credits - cost
      total_spent := cs.acct.total_spent + cost }
  let s0 :=
    { cs.stats with
      credits_used_today := cs.stats.credits_used_today + cost
      credits_used_this_week := cs.stats.credits_used_this_week + cost }
  let s :=
    if activity = "full_interview" then
      { s0 with full_interviews_this_week := s0.full_interviews_this_week + 1 }
    else if activity = "micro_session" then
      { s0 with micro_sessions_today := s0.micro_sessions_today + 1 }
    else if activity = "coding_question" then
      { s0 with coding_questions_today := s0.coding_questions_today + 1 }
    else if activity = "project_idea" then
      { s0 with project_ideas_this_week := s0.project_ideas_this_week + 1 }
    else s0
  ⟨a, s⟩

/-- `CreditService.add_bonus_credits`: unconditionally add the (signed)
adjustment amount; the admin schema allows any amount in `[-1000, 1000]`. -/
def addBonusCredits (amount : ℤ) (cs : CreditState) : CreditState :=
  { cs with
    acct :=
      { cs.acct with
        current_credits := cs.acct.current_credits + amount
        total_earned := cs.acct.total_earned + amount
        admin_bonus_credits := cs.acct.admin_bonus_credits + amount } }

/-- Ledger operations as issued by the call sites in `app.py`: a bare
eligibility check, a check immediately followed by a spend of the checked
cost when allowed (`start_interview_session`), or a bonus adjustment. -/
inductive CreditOp where
  | check (activity : String) (now : ℕ)
  | checkSpend (activity : String) (now : ℕ)
  | bonus (amount : ℤ)
  deriving Repr, DecidableEq

def CreditOp.isBonus : CreditOp → Bool
  | .bonus _ => true
  | _ => false

/-- `true` unless the operation is a bonus with a negative adjustment. -/
def CreditOp.bonusOk : CreditOp → Bool
  | .bonus amt => decide (0 ≤ amt)
  | _ => true

def stepOp (cs : CreditState) (op : CreditOp) : CreditState :=
  match op with
  | .check act now => (checkEligibility now act cs).1
  | .checkSpend act now =>
    let r := checkEligibility now act cs
    if r.2.allowed then spendCredits act (r.2.ctx.cost.getD 1) r.1 else r.1
  | .bonus amt => addBonusCredits amt cs

def runOps (t0 : ℕ) (ops : List CreditOp) : CreditState :=
  ops.foldl stepOp (initCreditState t0)

/-! ## Skill matching (the word-boundary regex loop in
`generate_recommendations_for_applicant`) -/

/-- `\w` for the ASCII fragment relevant here: letters, digits, underscore. -/
def isWordChar (c : Char) : Bool := c.isAlphanum || c = '_'

/-- Word-char status of position `i` in `s` (out of range counts as non-word). -/
def wordAt (s : List Char) (i : ℕ) : Bool :=
  match s[i]? with
  | some c => isWordChar c
  | none => false

/-- The regex `\b` holds between positions `i-1` and `i`: exactly one side is a
word character. -/
def boundaryAt (s : List Char) (i : ℕ) : Bool :=
  (if i = 0 then false else wordAt s (i - 1)) != wordAt s i

/-- `req` occurs in `s` at index `i` flanked by word boundaries — the meaning
of `re.search(r'\b' + re.escape(req) + r'\b', s)` finding a hit at `i`. -/
def WholeWordAt (req s : List Char) (i : ℕ) : Prop :=
  (s.drop i).take req.length = req ∧
    boundaryAt s i = true ∧ boundaryAt s (i + req.length) = true

def wholeWordAtB (req s : List Char) (i : ℕ) : Bool :=
  decide ((s.drop i).take req.length = req) && boundaryAt s i &&
    boundaryAt s (i + req.length)

/-- Executable scan over every candidate start position. -/
def hasWholeWord (req s : List Char) : Bool :=
  (List.range (s.length + 1)).any (wholeWordAtB req s)

/-- `x.lower()` restricted to ASCII case folding. -/
def lowerChars (x : String) : List Char := x.data.map Char.toLower

/-- One required name against one applicant skill name: word-boundary search of
the lowered strings for names of length ≥ 3, exact lowered equality otherwise. -/
def skillMatches (req sn : String) : Bool :=
  if 3 ≤ req.length then hasWholeWord (lowerChars req) (lowerChars sn)
  else lowerChars req = lowerChars sn

/-- The Python `set.add`, modelled as first-insertion order with exact-string
deduplication. -/
def insertOnce (acc : List String) (x : String) : List String :=
  if x ∈ acc then acc else acc ++ [x]

/-- The matched-requirements set built by the scoring loops: empty names are
skipped, and a required name is recorded once no matter how many applicant
skills it matches. -/
def matchedSkills (reqs skills : List String) : List String :=
  reqs.foldl
    (fun acc req =>
      if req.length = 0 then acc
      else if skills.any (fun sn => skillMatches req sn) then insertOnce acc req
      else acc)
    []

/-! ## Interview and assessment bonuses -/

/-- The interview-bonus derivation: most recent completed interview given as
`(overall_score, age in whole days)`; stale scores (age/30 ≥ 6 "months")
contribute nothing, fresh ones a stepped multiple of `INTERVIEW_SCORE`. -/
def interviewBonus (score : ℚ) (ageDays : ℕ) : ℚ :=
  if (ageDays : ℚ) / 30 < SCORE_FRESHNESS_MONTHS then
    if 80 ≤ score then INTERVIEW_SCORE * MULT_EXCELLENT
    else if 60 ≤ score then INTERVIEW_SCORE * MULT_GOOD
    else if 40 ≤ score then INTERVIEW_SCORE * MULT_AVERAGE
    else INTERVIEW_SCORE * MULT_POOR
  else 0

/-- Bonus for verified skill assessments (count of assessments scoring ≥ 70%):
2 points each, capped at `ASSESSMENT_SCORE`. -/
def assessmentBonus (verifiedCount : ℕ) : ℚ :=
  if 0 < verifiedCount then min ASSESSMENT_SCORE ((verifiedCount : ℚ) * 2) else 0

/-! ## Rounding (`round(x, 2)` idealised over ℚ as round-half-even) -/

def roundHalfEven (x : ℚ) : ℤ :=
  let f := ⌊x⌋
  let frac := x - (f : ℚ)
  if frac < 1/2 then f
  else if 1/2 < frac then f + 1
  else if f % 2 = 0 then f else f + 1

def round2 (q : ℚ) : ℚ := (roundHalfEven (q * 100) : ℚ) / 100

/-! ## Catalog rows and the applicant profile -/

structure EduEntry where
  grade : Option ℚ
  deriving Repr, DecidableEq

structure ProgramEntry where
  status : String
  required_skills : Option (List String)
  deriving Repr, DecidableEq

structure CollegeElig where
  min_jee_rank : Option ℕ
  min_cgpa : Option ℚ
  deriving Repr, DecidableEq

structure CollegeEntry where
  collegeId : ℕ
  name : String
  elig : Option CollegeElig
  programs : List ProgramEntry
  deriving Repr, DecidableEq

structure JobEntry where
  jobId : ℕ
  title : String
  status : String
  min_cgpa : Option ℚ
  required_skills : Option (List String)
  min_experience_years : Option ℚ
  deriving Repr, DecidableEq

/-- Everything `generate_recommendations_for_applicant` reads for one run. -/
structure GenInput where
  education : List EduEntry
  skills : List String
  jee_rank : Option ℕ
  latestInterview : Option (ℚ × ℕ)
  verifiedAssessments : ℕ
  colleges : List CollegeEntry
  jobs : List JobEntry
  deriving Repr, DecidableEq

/-- CGPA taken from the first education entry, if any. -/
def applicantCgpa (inp : GenInput) : Option ℚ :=
  match inp.education with
  | [] => none
  | e :: _ => e.grade

/-- Python truthiness of an optional float (absent or `0.0` is falsy). -/
def truthyQ : Option ℚ → Bool
  | none => false
  | some x => decide (x ≠ 0)

/-- Python truthiness of an optional int. -/
def truthyN : Option ℕ → Bool
  | none => false
  | some n => decide (n ≠ 0)

/-! ## College scoring -/

/-- The CGPA conjunct of the pre-filter query
`(min_cgpa IS NULL) OR (min_cgpa <= applicant_cgpa) if applicant_cgpa else True`
(eligibility `NULL` from the outer join passes the `IS NULL` test). -/
def cgpaPrefilter (cgpa : Option ℚ) (oe : Option CollegeElig) : Bool :=
  if truthyQ cgpa then
    match oe with
    | none => true
    | some e =>
      match e.min_cgpa with
      | none => true
      | some m => decide (m ≤ cgpa.getD 0)
  else true

/-- The rank conjunct of the pre-filter query
`(min_jee_rank IS NULL) OR (min_jee_rank >= jee_rank) if jee_rank else True`. -/
def rankPrefilter (rank : Option ℕ) (oe : Option CollegeElig) : Bool :=
  if truthyN rank then
    match oe with
    | none => true
    | some e =>
      match e.min_jee_rank with
      | none => true
      | some m => decide (rank.getD 0 ≤ m)
  else true

/-- Required skills gathered across a college's approved programs. -/
def collegeRequiredSkills (c : CollegeEntry) : List String :=
  (c.programs.filter (fun p => p.status = "approved")).flatMap
    (fun p => p.required_skills.getD [])

/-- The body of the college loop: short-circuit on a failed rank or CGPA
cutoff (Python truthiness on both sides), otherwise accumulate the weighted
components and their reason strings; emit only a strictly positive score. -/
def collegeScore (cgpa : Option ℚ) (rank : Option ℕ) (skills : List String)
    (ibonus abonus : ℚ) (c : CollegeEntry) : Option (ℚ × List String) :=
  match c.elig with
  | none => none
  | some e =>
    let step1 : Option (ℚ × List String) :=
      if truthyN e.min_jee_rank && truthyN rank then
        if rank.getD 0 ≤ e.min_jee_rank.getD 0 then
          some (JEE_RANK_SCORE,
            ["JEE rank " ++ toString (rank.getD 0) ++ " meets cutoff "
              ++ toString (e.min_jee_rank.getD 0)])
        else none
      else some (0, [])
    match step1 with
    | none => none
    | some (s1, r1) =>
      let step2 : Option (ℚ × List String) :=
        if truthyQ e.min_cgpa && truthyQ cgpa then
          if e.min_cgpa.getD 0 ≤ cgpa.getD 0 then
            some (s1 + CGPA_SCORE, r1 ++ ["CGPA meets minimum"])
          else none
        else some (s1, r1)
      match step2 with
      | none => none
      | some (s2, r2) =>
        let approved := c.programs.filter (fun p => p.status = "approved")
        let step3 : ℚ × List String :=
          if approved ≠ [] ∧ skills ≠ [] then
            let matched := matchedSkills (collegeRequiredSkills c) skills
            if matched ≠ [] then
              (s2 + min SKILLS_SCORE ((matched.length : ℚ) * 5),
                r2 ++ [toString matched.length ++ " skill(s) matched: "
                  ++ String.intercalate ", " (matched.take 3)])
            else (s2, r2)
          else (s2, r2)
        let step4 : ℚ × List String :=
          if 0 < ibonus then
            (step3.1 + ibonus * (1/2), step3.2 ++ ["Interview performance bonus"])
          else step3
        let step5 : ℚ × List String :=
          if 0 < abonus then
            (step4.1 + abonus, step4.2 ++ ["Verified skills bonus"])
          else step4
        if 0 < step5.1 then some step5 else none

/-! ## Job scoring -/

structure JobBreakdown where
  skill_score : ℚ
  academic_score : ℚ
  experience_score : ℚ
  interview_score : Option ℚ
  assessment_score : Option ℚ
  deriving Repr, DecidableEq

/-- The body of the job loop up to (but excluding) the
`MIN_JOB_RECOMMENDATION_SCORE` threshold: `none` only on a failed CGPA
requirement (both the job's cutoff and the applicant's CGPA compared by
`is not None`, not truthiness). -/
def jobCore (cgpa : Option ℚ) (skills : List String) (ibonus abonus : ℚ)
    (j : JobEntry) : Option (ℚ × JobBreakdown) :=
  let step1 : Option (ℚ × ℚ) :=
    match j.min_cgpa, cgpa with
    | some m, some c => if m ≤ c then some (ACADEMIC_SCORE, ACADEMIC_SCORE) else none
    | _, _ => some (ACADEMIC_SCORE * (1/2), ACADEMIC_SCORE * (1/2))
  match step1 with
  | none => none
  | some (s1, acad) =>
    let skillPart : ℚ × ℚ :=
      match j.required_skills with
      | none => (0, 0)
      | some required =>
        if skills ≠ [] then
          let matched := matchedSkills required skills
          if matched ≠ [] then
            let sk := ((matched.length : ℚ) / (max required.length 1 : ℕ)) * 50
            (sk, round2 sk)
          else (0, 0)
        else (0, 0)
    let s2 := s1 + skillPart.1
    let expScore : ℚ :=
      match j.min_experience_years with
      | none => EXPERIENCE_SCORE
      | some y => if y = 0 then EXPERIENCE_SCORE else 0
    let s3 := s2 + expScore
    let s4 := if 0 < ibonus then s3 + ibonus else s3
    let s5 := if 0 < abonus then s4 + abonus else s4
    some (s5,
      { skill_score := skillPart.2
        academic_score := acad
        experience_score := expScore
        interview_score := if 0 < ibonus then some ibonus else none
        assessment_score := if 0 < abonus then some abonus else none })

/-! ## Orchestration (`generate_recommendations_for_applicant`) -/

structure CollegeRow where
  collegeId : ℕ
  collegeName : String
  score : ℚ
  reasons : List String
  deriving Repr, DecidableEq

structure JobRow where
  jobId : ℕ
  title : String
  score : ℚ
  breakdown : JobBreakdown
  deriving Repr, DecidableEq

/-- Stable descending insertion: a new element goes after every element whose
key is ≥ its own, matching Python's stable `sorted(..., reverse=True)`. -/
def insertDesc {α : Type} (key : α → ℚ) (x : α) : List α → List α
  | [] => [x]
  | y :: ys => if key x ≤ key y then y :: insertDesc key x ys else x :: y :: ys

def sortDesc {α : Type} (key : α → ℚ) (l : List α) : List α :=
  l.foldl (fun acc x => insertDesc key x acc) []

/-- One generation run as a pure function of its inputs: pre-filtered college
loop, approved-job loop, and the two returned top-10 lists sorted by
(rounded) score descending. -/
structure GenOutput where
  collegeRows : List CollegeRow
  jobRows : List JobRow
  topColleges : List CollegeRow
  topJobs : List JobRow
  deriving Repr, DecidableEq

def collegeRowOf (cgpa : Option ℚ) (rank : Option ℕ) (skills : List String)
    (ibonus abonus : ℚ) (c : CollegeEntry) : Option CollegeRow :=
  (collegeScore cgpa rank skills ibonus abonus c).map
    (fun sr => ⟨c.collegeId, c.name, sr.1, sr.2⟩)

def jobRowOf (cgpa : Option ℚ) (skills : List String) (ibonus abonus : ℚ)
    (j : JobEntry) : Option JobRow :=
  (jobCore cgpa skills ibonus abonus j).bind
    (fun sb =>
      if MIN_JOB_RECOMMENDATION_SCORE ≤ sb.1 then
        some ⟨j.jobId, j.title, round2 sb.1, sb.2⟩
      else none)

/-- The once-per-run interview bonus (0 when there is no completed scored
interview). -/
def inputInterviewBonus (inp : GenInput) : ℚ :=
  match inp.latestInterview with
  | none => 0
  | some sd => interviewBonus sd.1 sd.2

def generate (inp : GenInput) : GenOutput :=
  let cgpa := applicantCgpa inp
  let ibonus := inputInterviewBonus inp
  let abonus := assessmentBonus inp.verifiedAssessments
  let pre := inp.colleges.filter
    (fun c => cgpaPrefilter cgpa c.elig && rankPrefilter inp.jee_rank c.elig)
  let collegeRows := pre.filterMap (collegeRowOf cgpa inp.jee_rank inp.skills ibonus abonus)
  let jobRows := (inp.jobs.filter (fun j => j.status = "approved")).filterMap
    (jobRowOf cgpa inp.skills ibonus abonus)
  { collegeRows := collegeRows
    jobRows := jobRows
    topColleges :=
      (sortDesc (fun r => r.score)
        (collegeRows.map (fun r => { r with score := round2 r.score }))).take 10
    topJobs := (sortDesc (fun r => r.score) jobRows).take 10 }

/-! ## Persistence (delete-then-insert regeneration) -/

structure RecRow where
  applicantId : ℕ
  targetId : ℕ
  score : ℚ
  deriving Repr, DecidableEq

structure RecState where
  collegeRecs : List RecRow
  jobRecs : List RecRow
  deriving Repr, DecidableEq

/-- A full run against the store: delete this applicant's college and job
recommendation rows, then insert the fresh ones (colleges persist the exact
score, jobs the rounded score). -/
def runGen (st : RecState) (aid : ℕ) (inp : GenInput) : RecState :=
  let out := generate inp
  { collegeRecs :=
      st.collegeRecs.filter (fun r => r.applicantId ≠ aid) ++
        out.collegeRows.map (fun r => ⟨aid, r.collegeId, r.score⟩)
    jobRecs :=
      st.jobRecs.filter (fun r => r.applicantId ≠ aid) ++
        out.jobRows.map (fun r => ⟨aid, r.jobId, r.score⟩) }

/-! ## Helper lemmas -/

theorem mem_insertDesc {α : Type} (key : α → ℚ) (x a : α) (l : List α) :
    a ∈ insertDesc key x l ↔ a = x ∨ a ∈ l := by
  induction l with
  | nil => simp [insertDesc]
  | cons y ys ih =>
    by_cases h : key x ≤ key y
    · simp only [insertDesc, if_pos h, List.mem_cons, ih]
      tauto
    · simp only [insertDesc, if_neg h, List.mem_cons]

theorem pairwise_insertDesc {α : Type} (key : α → ℚ) (x : α) (l : List α)
    (h : List.Pairwise (fun a b => key b ≤ key a) l) :
    List.Pairwise (fun a b => key b ≤ key a) (insertDesc key x l) := by
  induction l with
  | nil => simp [insertDesc]
  | cons y ys ih =>
    rcases List.pairwise_cons.mp h with ⟨hy, hys⟩
    by_cases hxy : key x ≤ key y
    · simp only [insertDesc, if_pos hxy]
      refine List.pairwise_cons.mpr ⟨?_, ih hys⟩
      intro a ha
      rcases (mem_insertDesc key x a ys).mp ha with rfl | ha
      · exact hxy
      · exact hy a ha
    · simp only [insertDesc, if_neg hxy]
      refine List.pairwise_cons.mpr ⟨?_, h⟩
      intro a ha
      rcases List.mem_cons.mp ha with rfl | ha
      · exact le_of_not_le hxy
      · exact le_trans (hy a ha) (le_of_not_le hxy)

theorem pairwise_sortDesc_aux {α : Type} (key : α → ℚ) (l acc : List α)
    (hacc : List.Pairwise (fun a b => key b ≤ key a) acc) :
    List.Pairwise (fun a b => key b ≤ key a)
      (l.foldl (fun acc x => insertDesc key x acc) acc) := by
  induction l generalizing acc with
  | nil => exact hacc
  | cons x xs ih =>
    exact ih (insertDesc key x acc) (pairwise_insertDesc key x acc hacc)

theorem pairwise_sortDesc {α : Type} (key : α → ℚ) (l : List α) :
    List.Pairwise (fun a b => key b ≤ key a) (sortDesc key l) :=
  pairwise_sortDesc_aux key l [] List.Pairwise.nil

theorem mem_sortDesc_aux {α : Type} (key : α → ℚ) (l acc : List α) (a : α) :
    a ∈ l.foldl (fun acc x => insertDesc key x acc) acc ↔ a ∈ acc ∨ a ∈ l := by
  induction l generalizing acc with
  | nil => simp
  | cons x xs ih =>
    simp only [List.foldl_cons, ih, mem_insertDesc, List.mem_cons]
    tauto

theorem mem_sortDesc {α : Type} (key : α → ℚ) (l : List α) (a : α) :
    a ∈ sortDesc key l ↔ a ∈ l := by
  simpa using mem_sortDesc_aux key l [] a

/-- Images of surviving rows form a sublist of the images of the catalog. -/
theorem map_filterMap_filter_sublist {α β γ : Type} (p : α → Bool) (f : α → Option β)
    (g : β → γ) (h : α → γ) (l : List α) (hf : ∀ x r, f x = some r → g r = h x) :
    (((l.filter p).filterMap f).map g).Sublist (l.map h) := by
  induction l with
  | nil => simp
  | cons x xs ih =>
    by_cases hp : p x
    · rw [List.filter_cons_of_pos hp]
      cases hfx : f x with
      | none => simpa [List.filterMap_cons, hfx] using ih.cons (h x)
      | some r =>
        rw [List.filterMap_cons, hfx, List.map_cons, List.map_cons, hf x r hfx]
        exact ih.cons₂ (h x)
    · rw [List.filter_cons_of_neg hp]
      exact ih.cons (h x)

theorem mem_insertOnce (acc : List String) (x y : String) :
    y ∈ insertOnce acc x ↔ y ∈ acc ∨ y = x := by
  by_cases h : x ∈ acc
  · simp only [insertOnce, if_pos h]
    constructor
    · exact Or.inl
    · rintro (hy | rfl)
      · exact hy
      · exact h
  · simp [insertOnce, if_neg h]

theorem nodup_insertOnce (acc : List String) (x : String) (h : acc.Nodup) :
    (insertOnce acc x).Nodup := by
  by_cases hx : x ∈ acc
  · simpa [insertOnce, if_pos hx] using h
  · simpa [insertOnce, if_neg hx] using List.Nodup.append h (List.nodup_singleton x)
      (by simpa using fun hmem (he : x = x) => hx hmem)

theorem nodup_matchedSkills_aux (reqs skills : List String) (acc : List String)
    (h : acc.Nodup) :
    (reqs.foldl
      (fun acc req =>
        if req.length = 0 then acc
        else if skills.any (fun sn => skillMatches req sn) then insertOnce acc req
        else acc) acc).Nodup := by
  induction reqs generalizing acc with
  | nil => exact h
  | cons r rs ih =>
    simp only [List.foldl_cons]
    by_cases h0 : r.length = 0
    · rw [if_pos h0]; exact ih acc h
    · rw [if_neg h0]
      by_cases hm : skills.any (fun sn => skillMatches r sn)
      · rw [if_pos hm]; exact ih _ (nodup_insertOnce acc r h)
      · rw [if_neg hm]; exact ih acc h

theorem nodup_matchedSkills (reqs skills : List String) :
    (matchedSkills reqs skills).Nodup :=
  nodup_matchedSkills_aux reqs skills [] List.nodup_nil

theorem mem_matchedSkills_aux (reqs skills : List String) (acc : List String)
    (req : String) :
    req ∈ reqs.foldl
        (fun acc req =>
          if req.length = 0 then acc
          else if skills.any (fun sn => skillMatches req sn) then insertOnce acc req
          else acc) acc ↔
      req ∈ acc ∨
        (req ∈ reqs ∧ req.length ≠ 0 ∧ ∃ sn ∈ skills, skillMatches req sn = true) := by
  induction reqs generalizing acc with
  | nil => simp
  | cons r rs ih =>
    simp only [List.foldl_cons]
    by_cases h0 : r.length = 0
    · rw [if_pos h0, ih]
      constructor
      · rintro (h | h)
        · exact Or.inl h
        · exact Or.inr ⟨List.mem_cons_of_mem r h.1, h.2⟩
      · rintro (h | ⟨hmem, hlen, hsn⟩)
        · exact Or.inl h
        · rcases List.mem_cons.mp hmem with rfl | hmem
          · exact absurd h0 hlen
          · exact Or.inr ⟨hmem, hlen, hsn⟩
    · rw [if_neg h0]
      by_cases hm : skills.any (fun sn => skillMatches r sn)
      · rw [if_pos hm, ih]
        simp only [mem_insertOnce]
        constructor
        · rintro ((h | rfl) | h)
          · exact Or.inl h
          · refine Or.inr ⟨List.mem_cons_self _ _, h0, ?_⟩
            simpa using List.any_eq_true.mp hm
          · exact Or.inr ⟨List.mem_cons_of_mem r h.1, h.2⟩
        · rintro (h | ⟨hmem, hlen, hsn⟩)
          · exact Or.inl (Or.inl h)
          · rcases List.mem_cons.mp hmem with rfl | hmem
            · exact Or.inl (Or.inr rfl)
            · exact Or.inr ⟨hmem, hlen, hsn⟩
      · rw [if_neg hm, ih]
        constructor
        · rintro (h | h)
          · exact Or.inl h
          · exact Or.inr ⟨List.mem_cons_of_mem r h.1, h.2⟩
        · rintro (h | ⟨hmem, hlen, hsn⟩)
          · exact Or.inl h
          · rcases List.mem_cons.mp hmem with rfl | hmem
            · exact absurd (List.any_eq_true.mpr (by simpa using hsn)) hm
            · exact Or.inr ⟨hmem, hlen, hsn⟩

theorem mem_matchedSkills (reqs skills : List String) (req : String) :
    req ∈ matchedSkills reqs skills ↔
      req ∈ reqs ∧ req.length ≠ 0 ∧ ∃ sn ∈ skills, skillMatches req sn = true := by
  have h := mem_matchedSkills_aux reqs skills [] req
  unfold matchedSkills
  rw [h]
  simp

theorem hasWholeWord_iff (req s : List Char) (hreq : req ≠ []) :
    hasWholeWord req s = true ↔ ∃ i, WholeWordAt req s i := by
  constructor
  · intro h
    rcases List.any_eq_true.mp h with ⟨i, _, hi⟩
    refine ⟨i, ?_⟩
    have := hi
    simp only [wholeWordAtB, Bool.and_eq_true, decide_eq_true_eq] at this
    exact ⟨this.1.1, this.1.2, this.2⟩
  · rintro ⟨i, htake, hb1, hb2⟩
    have hile : i ≤ s.length := by
      by_contra hgt
      push_neg at hgt
      have : s.drop i = [] := List.drop_eq_nil_of_le (le_of_lt hgt)
      rw [this] at htake
      simp at htake
      exact hreq htake
    refine List.any_eq_true.mpr ⟨i, ?_, ?_⟩
    · exact List.mem_range.mpr (Nat.lt_succ_of_le hile)
    · simp only [wholeWordAtB, Bool.and_eq_true, decide_eq_true_eq]
      exact ⟨⟨htake, hb1⟩, hb2⟩

/-- The maintenance (refill and lazy window resets) applied at the top of
every eligibility check. -/
def maintState (now : ℕ) (cs : CreditState) : CreditState :=
  ⟨checkAndRefill now cs.acct, resetWeeklyIfNeeded now (resetDailyIfNeeded now cs.stats)⟩

theorem balanceAndDailyCheck_fst (now : ℕ) (cost : ℤ) (cs : CreditState) :
    (balanceAndDailyCheck now cost cs).1 = cs := by
  unfold balanceAndDailyCheck
  split_ifs <;> rfl

theorem balanceAndDailyCheck_allowed (now : ℕ) (cost : ℤ) (cs : CreditState) :
    (balanceAndDailyCheck now cost cs).2.allowed = true →
      (balanceAndDailyCheck now cost cs).2.ctx.cost = some cost ∧
        cost ≤ cs.acct.current_credits ∧
        cs.stats.credits_used_today + cost ≤ MAX_DAILY_CREDITS_USAGE := by
  unfold balanceAndDailyCheck
  split_ifs with h1 h2
  · intro h; simp at h
  · intro h; simp at h
  · intro _; exact ⟨rfl, le_of_not_lt h1, le_of_not_lt h2⟩

theorem capReject_fst (reason : String) (cs : CreditState) :
    (capReject reason cs).1 = cs := rfl

theorem capReject_allowed (reason : String) (cs : CreditState) :
    (capReject reason cs).2.allowed = false := rfl

/-- Every branch of `check_eligibility` returns the maintained state, and an
allowed result always carries a positive cost covered by the (maintained)
balance and fitting under the daily ceiling. -/
theorem checkEligibility_shape (now : ℕ) (act : String) (cs : CreditState) :
    (checkEligibility now act cs).1 = maintState now cs ∧
      ((checkEligibility now act cs).2.allowed = true →
        ∃ k, (checkEligibility now act cs).2.ctx.cost = some k ∧ 0 < k ∧
          k ≤ (maintState now cs).acct.current_credits ∧
          (maintState now cs).stats.credits_used_today + k ≤ MAX_DAILY_CREDITS_USAGE) := by
  unfold checkEligibility
  simp only []
  split_ifs with h1 h2 h3 h4 h5 h6 h7 <;>
    first
    | exact ⟨capReject_fst _ _, fun hall =>
        absurd hall (by rw [capReject_allowed]; simp)⟩
    | (refine ⟨balanceAndDailyCheck_fst now _ _, fun hall => ?_⟩
       rcases balanceAndDailyCheck_allowed now _ _ hall with ⟨hc, hle, hday⟩
       exact ⟨_, hc, by norm_num [FULL_MOCK_INTERVIEW_COST, MICRO_SESSION_COST,
         CODING_QUESTION_COST, PROJECT_IDEA_COST], hle, hday⟩)

theorem checkAndRefill_limit (now : ℕ) (a : AccountState) :
    (checkAndRefill now a).weekly_credit_limit = a.weekly_credit_limit := by
  unfold checkAndRefill
  split_ifs <;> rfl

theorem checkAndRefill_lower (now : ℕ) (a : AccountState)
    (h0 : 0 ≤ a.current_credits) (hL : 0 ≤ a.weekly_credit_limit) :
    0 ≤ (checkAndRefill now a).current_credits := by
  unfold checkAndRefill
  split_ifs with h
  · simp only [le_min_iff]
    omega
  · exact h0

theorem checkAndRefill_upper (now : ℕ) (a : AccountState)
    (h2 : a.current_credits ≤ 2 * a.weekly_credit_limit) :
    (checkAndRefill now a).current_credits ≤
      2 * (checkAndRefill now a).weekly_credit_limit := by
  unfold checkAndRefill
  split_ifs with h
  · simp only [min_le_iff]
    omega
  · exact h2

/-- Credit-balance invariant used by the accumulation-cap claim. -/
def InvCap (cs : CreditState) : Prop :=
  0 ≤ cs.acct.current_credits ∧
    cs.acct.current_credits ≤ 2 * cs.acct.weekly_credit_limit ∧
    0 ≤ cs.acct.weekly_credit_limit

/-- Lower-bound-only invariant (survives nonnegative bonus adjustments). -/
def InvLo (cs : CreditState) : Prop :=
  0 ≤ cs.acct.current_credits ∧ 0 ≤ cs.acct.weekly_credit_limit

theorem maintState_invCap (now : ℕ) (cs : CreditState) (h : InvCap cs) :
    InvCap (maintState now cs) := by
  rcases h with ⟨h0, h2, hL⟩
  refine ⟨checkAndRefill_lower now cs.acct h0 hL, checkAndRefill_upper now cs.acct h2, ?_⟩
  show 0 ≤ (checkAndRefill now cs.acct).weekly_credit_limit
  rw [checkAndRefill_limit]
  exact hL

theorem maintState_invLo (now : ℕ) (cs : CreditState) (h : InvLo cs) :
    InvLo (maintState now cs) := by
  rcases h with ⟨h0, hL⟩
  refine ⟨checkAndRefill_lower now cs.acct h0 hL, ?_⟩
  show 0 ≤ (checkAndRefill now cs.acct).weekly_credit_limit
  rw [checkAndRefill_limit]
  exact hL

theorem spendCredits_acct (act : String) (cost : ℤ) (cs : CreditState) :
    (spendCredits act cost cs).acct.current_credits =
        cs.acct.current_credits - cost ∧
      (spendCredits act cost cs).acct.weekly_credit_limit =
        cs.acct.weekly_credit_limit := by
  unfold spendCredits
  exact ⟨rfl, rfl⟩

theorem stepOp_invCap (cs : CreditState) (op : CreditOp)
    (hop : op.isBonus = false) (h : InvCap cs) : InvCap (stepOp cs op) := by
  cases op with
  | bonus amt => simp [CreditOp.isBonus] at hop
  | check act now =>
    simp only [stepOp]
    rw [(checkEligibility_shape now act cs).1]
    exact maintState_invCap now cs h
  | checkSpend act now =>
    simp only [stepOp]
    rcases checkEligibility_shape now act cs with ⟨hfst, hcost⟩
    by_cases hall : (checkEligibility now act cs).2.allowed = true
    · rw [if_pos hall, hfst]
      rcases hcost hall with ⟨k, hk, hkpos, hkle, _⟩
      rw [hk]
      rcases maintState_invCap now cs h with ⟨m0, m2, mL⟩
      rcases spendCredits_acct act (Option.getD (some k) 1) (maintState now cs) with ⟨e1, e2⟩
      refine ⟨?_, ?_, ?_⟩
      · rw [e1]; simp only [Option.getD_some]; omega
      · rw [e1, e2]; simp only [Option.getD_some]; omega
      · rw [e2]; exact mL
    · rw [if_neg hall, hfst]
      exact maintState_invCap now cs h

theorem stepOp_invLo (cs : CreditState) (op : CreditOp)
    (hop : op.bonusOk = true) (h : InvLo cs) : InvLo (stepOp cs op) := by
  cases op with
  | bonus amt =>
    simp only [CreditOp.bonusOk, decide_eq_true_eq] at hop
    rcases h with ⟨h0, hL⟩
    constructor
    · show 0 ≤ cs.acct.current_credits + amt
      omega
    · show 0 ≤ cs.acct.weekly_credit_limit
      exact hL
  | check act now =>
    simp only [stepOp]
    rw [(checkEligibility_shape now act cs).1]
    exact maintState_invLo now cs h
  | checkSpend act now =>
    simp only [stepOp]
    rcases checkEligibility_shape now act cs with ⟨hfst, hcost⟩
    by_cases hall : (checkEligibility now act cs).2.allowed = true
    · rw [if_pos hall, hfst]
      rcases hcost hall with ⟨k, hk, hkpos, hkle, _⟩
      rw [hk]
      rcases maintState_invLo now cs h with ⟨m0, mL⟩
      rcases spendCredits_acct act (Option.getD (some k) 1) (maintState now cs) with ⟨e1, e2⟩
      refine ⟨?_, ?_⟩
      · rw [e1]; simp only [Option.getD_some]; omega
      · rw [e2]; exact mL
    · rw [if_neg hall, hfst]
      exact maintState_invLo now cs h

theorem foldl_stepOp_invCap (ops : List CreditOp) (cs : CreditState)
    (h : InvCap cs) (hops : ∀ op ∈ ops, op.isBonus = false) :
    InvCap (ops.foldl stepOp cs) := by
  induction ops generalizing cs with
  | nil => exact h
  | cons op rest ih =>
    exact ih (stepOp cs op)
      (stepOp_invCap cs op (hops op (List.mem_cons_self _ _)) h)
      (fun o ho => hops o (List.mem_cons_of_mem op ho))

theorem foldl_stepOp_invLo (ops : List CreditOp) (cs : CreditState)
    (h : InvLo cs) (hops : ∀ op ∈ ops, op.bonusOk = true) :
    InvLo (ops.foldl stepOp cs) := by
  induction ops generalizing cs with
  | nil => exact h
  | cons op rest ih =>
    exact ih (stepOp cs op)
      (stepOp_invLo cs op (hops op (List.mem_cons_self _ _)) h)
      (fun o ho => hops o (List.mem_cons_of_mem op ho))

theorem initCreditState_invCap (t0 : ℕ) : InvCap (initCreditState t0) := by
  refine ⟨?_, ?_, ?_⟩
  · show (0:ℤ) ≤ DEFAULT_WEEKLY_CREDITS
    decide
  · show DEFAULT_WEEKLY_CREDITS ≤ 2 * DEFAULT_WEEKLY_CREDITS
    decide
  · show (0:ℤ) ≤ DEFAULT_WEEKLY_CREDITS
    decide

/-! ## Claim theorems -/

/-- C2 (amended): over any sequence of ledger operations started from lazy
account creation, `current_credits` stays within `[0, 2 * weekly_credit_limit]`
provided the sequence contains no `add_bonus_credits` operation; and it stays
`≥ 0` as long as every bonus adjustment is nonnegative. (`add_bonus_credits`
itself is not bounded by the accumulation cap — see the counterexample.) -/
theorem c2_credit_invariant (t0 : ℕ) (ops : List CreditOp) :
    ((∀ op ∈ ops, op.isBonus = false) →
      0 ≤ (runOps t0 ops).acct.current_credits ∧
        (runOps t0 ops).acct.current_credits ≤
          2 * (runOps t0 ops).acct.weekly_credit_limit) ∧
    ((∀ op ∈ ops, op.bonusOk = true) →
      0 ≤ (runOps t0 ops).acct.current_credits) := by
  constructor
  · intro hops
    have h := foldl_stepOp_invCap ops (initCreditState t0)
      (initCreditState_invCap t0) hops
    exact ⟨h.1, h.2.1⟩
  · intro hops
    have h0 : InvLo (initCreditState t0) :=
      ⟨(initCreditState_invCap t0).1, (initCreditState_invCap t0).2.2⟩
    exact (foldl_stepOp_invLo ops (initCreditState t0) h0 hops).1

/-- Witness for C2 (amended): a concrete check-and-spend followed by a bare
check keeps the bounds, and a nonnegative bonus keeps the balance
nonnegative. -/
theorem c2_credit_invariant_witness :
    (0 ≤ (runOps 0 [CreditOp.checkSpend "full_interview" 0,
        CreditOp.check "micro_session" 3600]).acct.current_credits ∧
      (runOps 0 [CreditOp.checkSpend "full_interview" 0,
        CreditOp.check "micro_session" 3600]).acct.current_credits ≤
        2 * (runOps 0 [CreditOp.checkSpend "full_interview" 0,
          CreditOp.check "micro_session" 3600]).acct.weekly_credit_limit) ∧
    0 ≤ (runOps 0 [CreditOp.checkSpend "full_interview" 0,
        CreditOp.bonus 5]).acct.current_credits := by
  constructor
  · exact (c2_credit_invariant 0 _).1 (by decide)
  · exact (c2_credit_invariant 0 _).2 (by decide)

/-- C2 counterexample: a single admin bonus of 100 credits (within the
schema's allowed `[-1000, 1000]` range) on a fresh account pushes the balance
to 160, above the accumulation cap `2 * weekly_credit_limit = 120`; so the
claimed invariant does not survive `add_bonus_credits`. -/
theorem c2_counterexample :
    ¬ ((runOps 0 [CreditOp.bonus 100]).acct.current_credits ≤
        2 * (runOps 0 [CreditOp.bonus 100]).acct.weekly_credit_limit) := by
  decide

/-- The failing scenario for C3: four full interviews spent on four
consecutive days of one week. -/
def c3ops : List CreditOp :=
  [.checkSpend "full_interview" 0,
   .checkSpend "full_interview" 86400,
   .checkSpend "full_interview" 172800,
   .checkSpend "full_interview" 259200]

/-- C3 (code bug): with `full_interviews_this_week` already at
`MAX_FULL_INTERVIEWS_PER_WEEK` and ample balance, a fifth `full_interview`
eligibility check still returns allowed — the source's `full_interview`
branch computes its weekly-cap variables but never compares them. The
sibling `micro_session` cap, by contrast, does reject at its limit. -/
theorem c3_full_interview_cap_not_enforced :
    (runOps 0 c3ops).stats.full_interviews_this_week =
        MAX_FULL_INTERVIEWS_PER_WEEK ∧
      FULL_MOCK_INTERVIEW_COST ≤ (runOps 0 c3ops).acct.current_credits ∧
      (checkEligibility 262800 "full_interview" (runOps 0 c3ops)).2.allowed = true ∧
      (checkEligibility 0 "micro_session"
        { initCreditState 0 with
          stats := { (initCreditState 0).stats with
            micro_sessions_today := MAX_MICRO_SESSIONS_PER_DAY } }).2.allowed = false := by
  decide

/-- C4 (amended): an interview older than 180 days (six 30-day months)
contributes no bonus regardless of its score; a fresh one contributes
`INTERVIEW_SCORE` times the stepped multiplier table — 1.0 from 80 up, 0.67
for 60–79, 0.33 for 40–59 and 0 below 40 (the source's literals, which are
only approximately two-thirds and one-third). -/
theorem c4_interview_bonus_steps (score : ℚ) (ageDays : ℕ) :
    (180 ≤ ageDays → interviewBonus score ageDays = 0) ∧
    (ageDays < 180 →
      interviewBonus score ageDays =
        INTERVIEW_SCORE *
          (if 80 ≤ score then MULT_EXCELLENT
           else if 60 ≤ score then MULT_GOOD
           else if 40 ≤ score then MULT_AVERAGE
           else MULT_POOR)) := by
  have hiff : ((ageDays : ℚ) / 30 < SCORE_FRESHNESS_MONTHS) ↔ ageDays < 180 := by
    rw [SCORE_FRESHNESS_MONTHS, div_lt_iff₀ (by norm_num)]
    norm_cast
  constructor
  · intro h
    unfold interviewBonus
    rw [if_neg]
    rw [hiff]
    omega
  · intro h
    unfold interviewBonus
    rw [if_pos (hiff.mpr h)]
    split_ifs <;> rfl

/-- Witness for C4: a 95-scoring interview aged 200 days yields bonus 0,
and a fresh 70-scoring interview yields the 0.67 step. -/
theorem c4_interview_bonus_steps_witness :
    interviewBonus 95 200 = 0 ∧
      interviewBonus 70 10 = INTERVIEW_SCORE * MULT_GOOD := by
  constructor
  · exact (c4_interview_bonus_steps 95 200).1 (by norm_num)
  · have h := (c4_interview_bonus_steps 70 10).2 (by norm_num)
    rw [h]
    norm_num

/-- C4 counterexample: for a fresh interview scoring 70, the bonus is
`15 * 0.67 = 10.05`, not `INTERVIEW_SCORE * (2/3) = 10` as the claim's
"two-thirds" states. -/
theorem c4_counterexample :
    interviewBonus 70 0 = 201/20 ∧
      ¬ (interviewBonus 70 0 = INTERVIEW_SCORE * (2/3)) := by
  have h0 : interviewBonus 70 0 = 201/20 := by
    unfold interviewBonus
    norm_num [SCORE_FRESHNESS_MONTHS, INTERVIEW_SCORE, MULT_GOOD]
  refine ⟨h0, ?_⟩
  rw [h0, INTERVIEW_SCORE]
  norm_num

/-- C10: for an activity type outside the four known ones, `check_eligibility`
silently uses a default cost of 1 and applies no per-activity cap: it allows
exactly when the (maintained) balance is at least 1 and today's usage plus 1
fits under the global daily ceiling. -/
theorem c10_default_activity (now : ℕ) (act : String) (cs : CreditState)
    (h1 : act ≠ "full_interview") (h2 : act ≠ "micro_session")
    (h3 : act ≠ "coding_question") (h4 : act ≠ "project_idea") :
    ((checkEligibility now act cs).2.allowed = true ↔
      1 ≤ (maintState now cs).acct.current_credits ∧
        (maintState now cs).stats.credits_used_today + 1 ≤ MAX_DAILY_CREDITS_USAGE) ∧
    ((checkEligibility now act cs).2.allowed = true →
      (checkEligibility now act cs).2.ctx.cost = some 1) := by
  have hred : checkEligibility now act cs = balanceAndDailyCheck now 1 (maintState now cs) := by
    unfold checkEligibility maintState
    simp [h1, h2, h3, h4]
  rw [hred]
  constructor
  · unfold balanceAndDailyCheck
    split_ifs with g1 g2 <;> simp <;> omega
  · unfold balanceAndDailyCheck
    split_ifs with g1 g2
    · intro h; simp at h
    · intro h; simp at h
    · intro _; rfl

/-- Witness for C10: a fresh account checking the unknown activity
`resume_review` is allowed (60 credits ≥ 1, 0 + 1 ≤ 30) at default cost 1. -/
theorem c10_default_activity_witness :
    (checkEligibility 0 "resume_review" (initCreditState 0)).2.allowed = true ∧
      (checkEligibility 0 "resume_review" (initCreditState 0)).2.ctx.cost = some 1 := by
  have h := c10_default_activity 0 "resume_review" (initCreditState 0)
    (by decide) (by decide) (by decide) (by decide)
  have hall : (checkEligibility 0 "resume_review" (initCreditState 0)).2.allowed = true :=
    h.1.mpr (by constructor <;> decide)
  exact ⟨hall, h.2 hall⟩

/-! ## Structure of a generation run -/

theorem generate_collegeRows (inp : GenInput) :
    (generate inp).collegeRows =
      (inp.colleges.filter fun c =>
          cgpaPrefilter (applicantCgpa inp) c.elig &&
            rankPrefilter inp.jee_rank c.elig).filterMap
        (collegeRowOf (applicantCgpa inp) inp.jee_rank inp.skills
          (inputInterviewBonus inp) (assessmentBonus inp.verifiedAssessments)) := rfl

theorem generate_jobRows (inp : GenInput) :
    (generate inp).jobRows =
      (inp.jobs.filter fun j => j.status = "approved").filterMap
        (jobRowOf (applicantCgpa inp) inp.skills
          (inputInterviewBonus inp) (assessmentBonus inp.verifiedAssessments)) := rfl

theorem generate_topColleges (inp : GenInput) :
    (generate inp).topColleges =
      (sortDesc (fun r => r.score)
        ((generate inp).collegeRows.map
          (fun r => { r with score := round2 r.score }))).take 10 := rfl

theorem generate_topJobs (inp : GenInput) :
    (generate inp).topJobs =
      (sortDesc (fun r => r.score) (generate inp).jobRows).take 10 := rfl

theorem collegeRowOf_id (cgpa : Option ℚ) (rank : Option ℕ) (skills : List String)
    (ib ab : ℚ) (c : CollegeEntry) (r : CollegeRow)
    (h : collegeRowOf cgpa rank skills ib ab c = some r) :
    r.collegeId = c.collegeId := by
  unfold collegeRowOf at h
  rcases Option.map_eq_some'.mp h with ⟨sr, _, hr⟩
  rw [← hr]

theorem jobRowOf_id (cgpa : Option ℚ) (skills : List String)
    (ib ab : ℚ) (j : JobEntry) (r : JobRow)
    (h : jobRowOf cgpa skills ib ab j = some r) :
    r.jobId = j.jobId := by
  unfold jobRowOf at h
  rcases Option.bind_eq_some.mp h with ⟨sb, _, hr⟩
  by_cases hth : MIN_JOB_RECOMMENDATION_SCORE ≤ sb.1
  · rw [if_pos hth] at hr
    cases hr
    rfl
  · rw [if_neg hth] at hr
    cases hr

theorem rankPrefilter_false (rank cut : ℕ) (e : CollegeElig)
    (hcut : e.min_jee_rank = some cut) (hgt : cut < rank) :
    rankPrefilter (some rank) (some e) = false := by
  have hrank0 : rank ≠ 0 := by omega
  unfold rankPrefilter truthyN
  simp only [decide_eq_true_eq]
  rw [if_pos hrank0]
  simp only [hcut, Option.getD_some, decide_eq_false_iff_not]
  omega

/-- C1: a college target that declares a rank cutoff worse than the
applicant's rank is never scored, emitted, or persisted for that applicant —
the pre-filter query already drops it regardless of skills, CGPA, interview
or assessment bonuses. (The catalog is assumed to list each college id once,
matching the one-eligibility-row-per-college data model.) -/
theorem c1_rank_gate_absolute (inp : GenInput) (c : CollegeEntry) (e : CollegeElig)
    (cut rank : ℕ)
    (hN : (inp.colleges.map (fun x => x.collegeId)).Nodup)
    (hc : c ∈ inp.colleges) (he : c.elig = some e)
    (hcut : e.min_jee_rank = some cut)
    (hr : inp.jee_rank = some rank) (hgt : cut < rank) :
    (∀ r ∈ (generate inp).collegeRows, r.collegeId ≠ c.collegeId) ∧
    (∀ r ∈ (generate inp).topColleges, r.collegeId ≠ c.collegeId) ∧
    (∀ st aid, ∀ r ∈ (runGen st aid inp).collegeRecs,
      r.applicantId = aid → r.targetId ≠ c.collegeId) := by
  have hpre : rankPrefilter inp.jee_rank c.elig = false := by
    rw [hr, he]
    exact rankPrefilter_false rank cut e hcut hgt
  have part1 : ∀ r ∈ (generate inp).collegeRows, r.collegeId ≠ c.collegeId := by
    intro r hrmem heq
    rw [generate_collegeRows] at hrmem
    rcases List.mem_filterMap.mp hrmem with ⟨c', hc'mem, hrow⟩
    rcases List.mem_filter.mp hc'mem with ⟨hc'cat, hfilt⟩
    have hid : r.collegeId = c'.collegeId :=
      collegeRowOf_id _ _ _ _ _ c' r hrow
    have hcc : c' = c :=
      List.inj_on_of_nodup_map hN hc'cat hc (by rw [← hid, heq])
    rw [hcc, Bool.and_eq_true, hpre] at hfilt
    exact absurd hfilt.2 (by simp)
  refine ⟨part1, ?_, ?_⟩
  · intro r hrmem heq
    rw [generate_topColleges] at hrmem
    have hrs := List.take_subset 10 _ hrmem
    have hrm := (mem_sortDesc _ _ _).mp hrs
    rcases List.mem_map.mp hrm with ⟨r0, hr0, hadj⟩
    have : r.collegeId = r0.collegeId := by rw [← hadj]
    exact part1 r0 hr0 (by rw [← this, heq])
  · intro st aid r hrmem happ heq
    unfold runGen at hrmem
    rcases List.mem_append.mp hrmem with hold | hnew
    · have := (List.mem_filter.mp hold).2
      simp only [decide_eq_true_eq] at this
      exact this happ
    · rcases List.mem_map.mp hnew with ⟨r0, hr0, hback⟩
      have : r.targetId = r0.collegeId := by rw [← hback]
      exact part1 r0 hr0 (by rw [← this, heq])

/-- Input for the C1 witness: a single college with rank cutoff 100 against
an applicant ranked 200. -/
def c1winp : GenInput :=
  { education := [⟨some (17/2)⟩], skills := ["Python"], jee_rank := some 200,
    latestInterview := none, verifiedAssessments := 0,
    colleges := [⟨7, "W", some ⟨some 100, none⟩, [⟨"approved", some ["Python"]⟩]⟩],
    jobs := [] }

/-- Witness for C1 at a concrete catalog. -/
theorem c1_rank_gate_absolute_witness :
    ((generate c1winp).collegeRows.all (fun r => r.collegeId ≠ 7)) = true := by
  rw [List.all_eq_true]
  intro r hrmem
  have h := (c1_rank_gate_absolute c1winp
    ⟨7, "W", some ⟨some 100, none⟩, [⟨"approved", some ["Python"]⟩]⟩
    ⟨some 100, none⟩ 100 200 (by decide) (by decide) rfl rfl rfl (by decide)).1 r hrmem
  simpa using h

/-- The college of the C5 example scenario: rank cutoff 3000, grade cutoff
8.0, one approved program requiring Python and SQL. -/
def c5col : CollegeEntry :=
  ⟨1, "A", some ⟨some 3000, some 8⟩, [⟨"approved", some ["Python", "SQL"]⟩]⟩

/-- The applicant of the C5 example scenario: rank 2500, grade 8.5, skills
Python and Django, no interview or assessment bonus. -/
def c5inp : GenInput :=
  { education := [⟨some (17/2)⟩], skills := ["Python", "Django"], jee_rank := some 2500,
    latestInterview := none, verifiedAssessments := 0,
    colleges := [c5col], jobs := [] }

/-- C5: on the example scenario the applicant is eligible and the run emits
exactly one college recommendation with score
`JEE_RANK_SCORE + CGPA_SCORE + 5` and an explanation of three reasons, one of
them the skill-match reason "1 skill(s) matched: Python". -/
theorem c5_college_example_scenario :
    (generate c5inp).collegeRows =
      [⟨1, "A", JEE_RANK_SCORE + CGPA_SCORE + 5,
        ["JEE rank 2500 meets cutoff 3000", "CGPA meets minimum",
          "1 skill(s) matched: Python"]⟩] := by
  have hm : matchedSkills (collegeRequiredSkills c5col) ["Python", "Django"] =
      ["Python"] := by decide
  simp only [c5col] at hm
  have hne : (["Python", "Django"] : List String) ≠ [] := by decide
  have hr1 : "JEE rank " ++ toString (2500:ℕ) ++ " meets cutoff " ++ toString (3000:ℕ) =
      "JEE rank 2500 meets cutoff 3000" := by decide
  have hr3 : toString (1:ℕ) ++ " skill(s) matched: " ++ String.intercalate ", " ["Python"] =
      "1 skill(s) matched: Python" := by decide
  norm_num [generate, c5inp, c5col, applicantCgpa, inputInterviewBonus, assessmentBonus,
    cgpaPrefilter, rankPrefilter, truthyQ, truthyN, collegeRowOf, collegeScore,
    hm, hne, hr1, hr3, List.filterMap_cons, JEE_RANK_SCORE, CGPA_SCORE, SKILLS_SCORE]

/-- C7: required names of length ≥ 3 are matched exactly when they occur as a
case-insensitive whole-word (word-boundary) substring of some applicant skill
name, shorter names only by exact case-insensitive equality, and each
required name is recorded at most once. -/
theorem c7_skill_match_semantics (reqs skills : List String) (req : String) :
    (matchedSkills reqs skills).Nodup ∧
    (req ∈ matchedSkills reqs skills ↔
      req ∈ reqs ∧ req.length ≠ 0 ∧ ∃ sn ∈ skills, skillMatches req sn = true) ∧
    (3 ≤ req.length → ∀ sn : String,
      (skillMatches req sn = true ↔
        ∃ i, WholeWordAt (lowerChars req) (lowerChars sn) i)) ∧
    (req.length < 3 → ∀ sn : String,
      (skillMatches req sn = true ↔ lowerChars req = lowerChars sn)) := by
  refine ⟨nodup_matchedSkills reqs skills, mem_matchedSkills reqs skills req, ?_, ?_⟩
  · intro h3 sn
    have hlen : (lowerChars req).length = req.length := by
      rw [lowerChars, List.length_map]
      rfl
    have hne : lowerChars req ≠ [] := by
      intro hnil
      rw [hnil] at hlen
      simp at hlen
      omega
    unfold skillMatches
    rw [if_pos h3]
    exact hasWholeWord_iff (lowerChars req) (lowerChars sn) hne
  · intro hlt sn
    unfold skillMatches
    rw [if_neg (not_le.mpr hlt)]
    simp

/-- Witness for C7: "java" matches "Core Java" (whole word at index 5) but
not "javascript". -/
theorem c7_skill_match_semantics_witness :
    ("java" ∈ matchedSkills ["java"] ["Core Java"]) ∧
      ("java" ∉ matchedSkills ["java"] ["javascript"]) ∧
      skillMatches "java" "Core Java" = true := by
  have hcore : skillMatches "java" "Core Java" = true :=
    ((c7_skill_match_semantics ["java"] ["Core Java"] "java").2.2.1
      (by decide) "Core Java").mpr ⟨5, by decide, by decide, by decide⟩
  refine ⟨?_, ?_, hcore⟩
  · exact (c7_skill_match_semantics ["java"] ["Core Java"] "java").2.1.mpr
      ⟨by decide, by decide, "Core Java", by decide, hcore⟩
  · intro hmem
    have h := (c7_skill_match_semantics ["java"] ["javascript"] "java").2.1.mp hmem
    have hex : ∃ sn ∈ ["javascript"], skillMatches "java" sn = true := h.2.2
    revert hex
    decide

/-- The job of the C6 example scenario: fresher-friendly, no CGPA
requirement, three required skills. -/
def c6job : JobEntry :=
  ⟨11, "J", "approved", none, some ["Python", "React", "SQL"], some 0⟩

/-- A below-threshold job used to witness the exclusion rule. -/
def c6lowjob : JobEntry := ⟨12, "L", "approved", none, none, some 0⟩

/-- C6: on the example scenario the job total is
`(1/3)*50 + ACADEMIC_SCORE*(1/2) + EXPERIENCE_SCORE` (proportional skill
coverage, half academic credit, full fresher bonus), and in general any job
whose total falls below `MIN_JOB_RECOMMENDATION_SCORE` produces no result
row. -/
theorem c6_job_example_and_threshold :
    ((jobCore none ["Python"] 0 0 c6job).map Prod.fst =
        some ((1/3) * 50 + ACADEMIC_SCORE * (1/2) + EXPERIENCE_SCORE)) ∧
      (∀ (cgpa : Option ℚ) (skills : List String) (ib ab : ℚ) (j : JobEntry)
          (sb : ℚ × JobBreakdown),
        jobCore cgpa skills ib ab j = some sb →
          sb.1 < MIN_JOB_RECOMMENDATION_SCORE →
          jobRowOf cgpa skills ib ab j = none) := by
  constructor
  · have hm : matchedSkills ["Python", "React", "SQL"] ["Python"] = ["Python"] := by
      decide
    norm_num [jobCore, c6job, hm, ACADEMIC_SCORE, EXPERIENCE_SCORE]
  · intro cgpa skills ib ab j sb hcore hlt
    unfold jobRowOf
    rw [hcore, Option.some_bind, if_neg (not_le.mpr hlt)]

/-- Witness for C6: the bare fresher job totals 30 < 35 and is excluded. -/
theorem c6_job_example_and_threshold_witness :
    jobRowOf none [] 0 0 c6lowjob = none := by
  have hcore : jobCore none [] 0 0 c6lowjob =
      some (ACADEMIC_SCORE * (1/2) + EXPERIENCE_SCORE,
        ⟨0, ACADEMIC_SCORE * (1/2), EXPERIENCE_SCORE, none, none⟩) := by
    norm_num [jobCore, c6lowjob, ACADEMIC_SCORE, EXPERIENCE_SCORE]
  exact c6_job_example_and_threshold.2 none [] 0 0 c6lowjob _ hcore
    (by norm_num [ACADEMIC_SCORE, EXPERIENCE_SCORE, MIN_JOB_RECOMMENDATION_SCORE])

/-! ## Regeneration state lemmas -/

theorem runGen_collegeRecs (st : RecState) (aid : ℕ) (inp : GenInput) :
    (runGen st aid inp).collegeRecs =
      st.collegeRecs.filter (fun r => r.applicantId ≠ aid) ++
        (generate inp).collegeRows.map (fun r => ⟨aid, r.collegeId, r.score⟩) := rfl

theorem runGen_jobRecs (st : RecState) (aid : ℕ) (inp : GenInput) :
    (runGen st aid inp).jobRecs =
      st.jobRecs.filter (fun r => r.applicantId ≠ aid) ++
        (generate inp).jobRows.map (fun r => ⟨aid, r.jobId, r.score⟩) := rfl

theorem filter_ne_of_all_eq (aid : ℕ) (l : List RecRow)
    (h : ∀ r ∈ l, r.applicantId = aid) :
    l.filter (fun r => r.applicantId ≠ aid) = [] := by
  induction l with
  | nil => rfl
  | cons x xs ih =>
    have hx := h x (List.mem_cons_self _ _)
    simp only [List.filter_cons, hx]
    simpa using ih (fun r hr => h r (List.mem_cons_of_mem _ hr))

theorem filter_eq_of_all_eq (aid : ℕ) (l : List RecRow)
    (h : ∀ r ∈ l, r.applicantId = aid) :
    l.filter (fun r => r.applicantId = aid) = l := by
  induction l with
  | nil => rfl
  | cons x xs ih =>
    have hx := h x (List.mem_cons_self _ _)
    simp only [List.filter_cons, hx]
    simpa using ih (fun r hr => h r (List.mem_cons_of_mem _ hr))

theorem filter_ne_idem (aid : ℕ) (l : List RecRow) :
    (l.filter (fun r => r.applicantId ≠ aid)).filter (fun r => r.applicantId ≠ aid) =
      l.filter (fun r => r.applicantId ≠ aid) := by
  induction l with
  | nil => rfl
  | cons x xs ih =>
    by_cases hx : x.applicantId = aid <;> simp [List.filter_cons, hx, ih]

theorem filter_eq_filter_ne (aid : ℕ) (l : List RecRow) :
    (l.filter (fun r => r.applicantId ≠ aid)).filter (fun r => r.applicantId = aid) = [] := by
  induction l with
  | nil => rfl
  | cons x xs ih =>
    by_cases hx : x.applicantId = aid <;> simp [List.filter_cons, hx, ih]

theorem recState_eq (a b : RecState)
    (h1 : a.collegeRecs = b.collegeRecs) (h2 : a.jobRecs = b.jobRecs) : a = b := by
  cases a
  cases b
  simp_all

theorem new_rows_applicant (aid : ℕ) {α : Type} (rows : List α) (f : α → ℕ) (g : α → ℚ) :
    ∀ r ∈ rows.map (fun r => (⟨aid, f r, g r⟩ : RecRow)), r.applicantId = aid := by
  intro r hr
  rcases List.mem_map.mp hr with ⟨r0, _, hback⟩
  rw [← hback]

/-- C8: regeneration replaces rather than accumulates — a second run on
unchanged inputs leaves the store exactly as the first run did, and (given a
catalog that lists each target id once) the applicant's persisted rows
contain at most one row per target. -/
theorem c8_idempotent_regeneration (st : RecState) (aid : ℕ) (inp : GenInput) :
    runGen (runGen st aid inp) aid inp = runGen st aid inp ∧
      ((inp.colleges.map (fun c => c.collegeId)).Nodup →
        (((runGen st aid inp).collegeRecs.filter
            (fun r => r.applicantId = aid)).map (fun r => r.targetId)).Nodup) ∧
      ((inp.jobs.map (fun j => j.jobId)).Nodup →
        (((runGen st aid inp).jobRecs.filter
            (fun r => r.applicantId = aid)).map (fun r => r.targetId)).Nodup) := by
  have hnewc := new_rows_applicant aid (generate inp).collegeRows
    (fun r => r.collegeId) (fun r => r.score)
  have hnewj := new_rows_applicant aid (generate inp).jobRows
    (fun r => r.jobId) (fun r => r.score)
  refine ⟨?_, ?_, ?_⟩
  · refine recState_eq _ _ ?_ ?_
    · rw [runGen_collegeRecs, runGen_collegeRecs,
        List.filter_append, filter_ne_idem, filter_ne_of_all_eq aid _ hnewc,
        List.append_nil]
    · rw [runGen_jobRecs, runGen_jobRecs,
        List.filter_append, filter_ne_idem, filter_ne_of_all_eq aid _ hnewj,
        List.append_nil]
  · intro hN
    rw [runGen_collegeRecs, List.filter_append, filter_eq_filter_ne,
      filter_eq_of_all_eq aid _ hnewc, List.nil_append, List.map_map]
    have hcomp :
        ((fun r : RecRow => r.targetId) ∘
            fun r : CollegeRow => (⟨aid, r.collegeId, r.score⟩ : RecRow)) =
          fun r : CollegeRow => r.collegeId := rfl
    rw [hcomp, generate_collegeRows]
    exact List.Nodup.sublist
      (map_filterMap_filter_sublist _ _ _ _ inp.colleges
        (fun c r h => collegeRowOf_id _ _ _ _ _ c r h)) hN
  · intro hN
    rw [runGen_jobRecs, List.filter_append, filter_eq_filter_ne,
      filter_eq_of_all_eq aid _ hnewj, List.nil_append, List.map_map]
    have hcomp :
        ((fun r : RecRow => r.targetId) ∘
            fun r : JobRow => (⟨aid, r.jobId, r.score⟩ : RecRow)) =
          fun r : JobRow => r.jobId := rfl
    rw [hcomp, generate_jobRows]
    exact List.Nodup.sublist
      (map_filterMap_filter_sublist _ _ _ _ inp.jobs
        (fun j r h => jobRowOf_id _ _ _ _ j r h)) hN

/-- A small store and input for the C8 witness. -/
def c8st : RecState := ⟨[⟨1, 9, 50⟩, ⟨2, 9, 50⟩], [⟨1, 4, 40⟩]⟩

def c8inp : GenInput :=
  { education := [], skills := ["Python"], jee_rank := none,
    latestInterview := none, verifiedAssessments := 0,
    colleges := [⟨9, "W", some ⟨none, none⟩, [⟨"approved", some ["Python"]⟩]⟩],
    jobs := [] }

/-- Witness for C8 on a concrete store. -/
theorem c8_idempotent_regeneration_witness :
    runGen (runGen c8st 1 c8inp) 1 c8inp = runGen c8st 1 c8inp ∧
      (((runGen c8st 1 c8inp).collegeRecs.filter
          (fun r => r.applicantId = 1)).map (fun r => r.targetId)).Nodup := by
  refine ⟨(c8_idempotent_regeneration c8st 1 c8inp).1, ?_⟩
  exact (c8_idempotent_regeneration c8st 1 c8inp).2.1 (by decide)

/-- C9 (amended): each returned list holds at most 10 entries, sorted by
score descending; equal scores keep the catalog iteration order (Python's
stable sort) rather than being reordered by target id. -/
theorem c9_top10_sorted_desc (inp : GenInput) :
    (generate inp).topColleges.length ≤ 10 ∧
      (generate inp).topJobs.length ≤ 10 ∧
      List.Pairwise (fun a b => b.score ≤ a.score) (generate inp).topColleges ∧
      List.Pairwise (fun a b => b.score ≤ a.score) (generate inp).topJobs := by
  refine ⟨?_, ?_, ?_, ?_⟩
  · rw [generate_topColleges]
    exact List.length_take_le 10 _
  · rw [generate_topJobs]
    exact List.length_take_le 10 _
  · rw [generate_topColleges]
    exact List.Pairwise.sublist (List.take_sublist 10 _)
      (pairwise_sortDesc (fun r : CollegeRow => r.score) _)
  · rw [generate_topJobs]
    exact List.Pairwise.sublist (List.take_sublist 10 _)
      (pairwise_sortDesc (fun r : JobRow => r.score) _)

theorem round2_intCast (n : ℤ) : round2 ((n : ℚ)) = (n : ℚ) := by
  unfold round2 roundHalfEven
  have h : ((n : ℚ) * 100) = ((100 * n : ℤ) : ℚ) := by push_cast; ring
  rw [h, Int.floor_intCast]
  norm_num

/-- Catalog for the C9 counterexample: two equally scoring colleges listed
with the higher id first. -/
def c9inp : GenInput :=
  { education := [], skills := ["Python"], jee_rank := none,
    latestInterview := none, verifiedAssessments := 0,
    colleges := [⟨2, "B", some ⟨none, none⟩, [⟨"approved", some ["Python"]⟩]⟩,
                 ⟨1, "A", some ⟨none, none⟩, [⟨"approved", some ["Python"]⟩]⟩],
    jobs := [] }

/-- C9 counterexample: both colleges score 5, yet the returned order is
`[id 2, id 1]` — ties follow catalog order, not target id ascending. -/
theorem c9_counterexample :
    (generate c9inp).topColleges.map (fun r => (r.collegeId, r.score)) = [(2, 5), (1, 5)] ∧
      ¬ List.Pairwise
          (fun a b => b.score < a.score ∨ (b.score = a.score ∧ a.collegeId < b.collegeId))
          (generate c9inp).topColleges := by
  have hm : matchedSkills (collegeRequiredSkills
      ⟨2, "B", some ⟨none, none⟩, [⟨"approved", some ["Python"]⟩]⟩) ["Python"] =
      ["Python"] := by decide
  have hm' : matchedSkills (collegeRequiredSkills
      ⟨1, "A", some ⟨none, none⟩, [⟨"approved", some ["Python"]⟩]⟩) ["Python"] =
      ["Python"] := by decide
  have hne : (["Python"] : List String) ≠ [] := by decide
  have hr3 : toString (1:ℕ) ++ " skill(s) matched: " ++ String.intercalate ", " ["Python"] =
      "1 skill(s) matched: Python" := by decide
  have h5 : round2 5 = 5 := by
    have := round2_intCast 5
    norm_num at this
    exact this
  have hfull : (generate c9inp).topColleges =
      [⟨2, "B", 5, ["1 skill(s) matched: Python"]⟩,
       ⟨1, "A", 5, ["1 skill(s) matched: Python"]⟩] := by
    norm_num [generate, c9inp, applicantCgpa, inputInterviewBonus, assessmentBonus,
      cgpaPrefilter, rankPrefilter, truthyQ, truthyN, collegeRowOf, collegeScore,
      hm, hm', hne, hr3, h5, List.filterMap_cons, sortDesc, insertDesc,
      SKILLS_SCORE]
  rw [hfull]
  constructor
  · norm_num
  · intro hpw
    have h1 := (List.pairwise_cons.mp hpw).1
      (⟨1, "A", 5, ["1 skill(s) matched: Python"]⟩ : CollegeRow) (by simp)
    rcases h1 with h | h
    · exact absurd h (by norm_num)
    · exact absurd h.2 (by norm_num)

end CareerGuidance
